import Mathlib

/-!
Verification of the provisioning pipeline of the `project` package
(`project/prepare.py` and `project/plugins/providers/download.py`).

Python dictionaries (the process environment, provider configs, the local
state store's service run states) are modelled as association lists whose
keys are strings; lookup finds the first matching key, update replaces the
value of the first matching key in place (keeping insertion order) and
appends at the end when the key is absent, mirroring `d[k] = v` semantics,
and pop removes the first matching key, mirroring `d.pop(k, None)`.
-/

/-- Python `d[key]` / `key in d`: first-match lookup in an association list. -/
def lookupAssoc {α : Type} : List (String × α) → String → Option α
  | [], _ => none
  | (k, v) :: rest, key => if k = key then some v else lookupAssoc rest key

/-- Python `d[key] = val`: replace the value of `key` in place, or append. -/
def updateAssoc {α : Type} : List (String × α) → String → α → List (String × α)
  | [], key, val => [(key, val)]
  | (k, v) :: rest, key, val =>
    if k = key then (k, val) :: rest else (k, v) :: updateAssoc rest key val

/-- Python `d.pop(key, None)`: remove the entry for `key` if present. -/
def popAssoc {α : Type} : List (String × α) → String → List (String × α)
  | [], _ => []
  | (k, v) :: rest, key => if k = key then rest else (k, v) :: popAssoc rest key

/-- The value of the LAST occurrence of `key`; on a duplicate-free list this
agrees with `lookupAssoc`, and it describes what a left-to-right sequence of
dictionary writes leaves behind. -/
def lookupLast {α : Type} : List (String × α) → String → Option α
  | [], _ => none
  | (k, v) :: rest, key =>
    match lookupLast rest key with
    | some v' => some v'
    | none => if k = key then some v else none

/-- A process environment: a string-to-string dictionary. -/
abbrev Environ := List (String × String)

/-- The commit loop at the end of `prepare` (prepare.py lines 125-127):
`for key, value in environ_copy.items(): if key not in environ or
environ[key] != value: environ[key] = value`.  The guard
`key not in environ or environ[key] != value` is exactly
`lookupAssoc environ key ≠ some value`. -/
def commitMerge (environ : Environ) (environ_copy : Environ) : Environ :=
  environ_copy.foldl
    (fun acc kv => if lookupAssoc acc kv.1 = some kv.2 then acc else updateAssoc acc kv.1 kv.2)
    environ

theorem lookupAssoc_updateAssoc {α : Type} (l : List (String × α)) (k : String) (v : α)
    (key : String) :
    lookupAssoc (updateAssoc l k v) key = if k = key then some v else lookupAssoc l key := by
  induction l with
  | nil => simp [updateAssoc, lookupAssoc]
  | cons hd tl ih =>
    obtain ⟨k₁, v₁⟩ := hd
    by_cases h₁ : k₁ = k
    · subst h₁
      by_cases h₂ : k₁ = key <;> simp [updateAssoc, lookupAssoc, h₂]
    · by_cases h₂ : k₁ = key
      · subst h₂
        have : ¬ k = k₁ := fun h => h₁ h.symm
        simp [updateAssoc, lookupAssoc, h₁, this]
      · simp [updateAssoc, lookupAssoc, h₁, h₂, ih]

theorem lookupAssoc_popAssoc_other {α : Type} (l : List (String × α)) (k key : String)
    (h : k ≠ key) :
    lookupAssoc (popAssoc l k) key = lookupAssoc l key := by
  induction l with
  | nil => simp [popAssoc]
  | cons hd tl ih =>
    obtain ⟨k₁, v₁⟩ := hd
    by_cases h₁ : k₁ = k
    · subst h₁
      simp [popAssoc, lookupAssoc, h]
    · simp [popAssoc, lookupAssoc, h₁]
      by_cases h₂ : k₁ = key <;> simp [h₂, ih]

/-- Pointwise description of the commit loop: a key written by the working
copy ends up with the working copy's (last) value; a key the working copy
does not mention keeps its original value. -/
theorem lookupAssoc_commitMerge (environ_copy : Environ) (environ : Environ) (key : String) :
    lookupAssoc (commitMerge environ environ_copy) key =
      match lookupLast environ_copy key with
      | some v => some v
      | none => lookupAssoc environ key := by
  induction environ_copy generalizing environ with
  | nil => simp [commitMerge, lookupLast]
  | cons hd tl ih =>
    obtain ⟨k, v⟩ := hd
    have hstep : commitMerge environ ((k, v) :: tl) =
        commitMerge (if lookupAssoc environ k = some v then environ
                     else updateAssoc environ k v) tl := by
      simp [commitMerge, List.foldl_cons]
    rw [hstep, ih]
    have hpoint : lookupAssoc
        (if lookupAssoc environ k = some v then environ else updateAssoc environ k v) key =
        if k = key then some v else lookupAssoc environ key := by
      by_cases hc : lookupAssoc environ k = some v
      · by_cases hk : k = key
        · subst hk; simp [hc]
        · simp [hc, hk]
      · simp [hc, lookupAssoc_updateAssoc]
    rw [hpoint]
    by_cases hk : k = key
    · subst hk
      cases htl : lookupLast tl k <;> simp [lookupLast, htl]
    · cases htl : lookupLast tl key <;> simp [lookupLast, htl, hk]

/-! ## Local state store

`LocalStateFile` itself lives outside the provisioning core; the engine only
consumes its interface.  `saves` records one snapshot of `run_states` per
`save()` call, so that persistence can be observed in theorems. -/

/-- A process command line, as passed to `subprocess.call`. -/
abbrev Command := List String

/-- One service's recorded run state: a dictionary; only list-of-command
values occur in the fields `unprepare` reads (the `shutdown_commands` key). -/
abbrev RunState := List (String × List Command)

/-- Modelled from the spec: the local state store interface (`LocalStateFile`,
module `project.local_state_file`, absent from src/): a key/value store with
`get_all_service_run_states()`, `set_service_run_state(name, state)` and
`save()`. -/
structure LocalState where
  run_states : List (String × RunState)
  saves : List (List (String × RunState))
deriving DecidableEq

/-- `local_state.set_service_run_state(service_name, state)`. -/
def set_service_run_state (ls : LocalState) (service_name : String) (state : RunState) :
    LocalState :=
  { ls with run_states := updateAssoc ls.run_states service_name state }

/-- `local_state.save()`: persist the current run states (recorded as a
snapshot). -/
def saveLocalState (ls : LocalState) : LocalState :=
  { ls with saves := ls.saves ++ [ls.run_states] }

/-! ## Requirements, providers and the prepare engine (prepare.py) -/

/-- A project requirement, as the engine sees it: an env var name, a title
for diagnostics, and the status predicate `why_not_provided` (contract of
`project.plugins.requirement`): `none` means satisfied, `some reason` means
unsatisfied and why. -/
structure Requirement where
  env_var : String
  title : String
  why_not_provided : Environ → Option String

/-- Provider configuration: a key/value map of previously chosen settings. -/
abbrev ProviderConfig := List (String × String)

/-- Modelled from the spec: `ProvideContext` (module
`project.plugins.provider`, absent from src/) owns the working environment
mapping, the local state handle, the resolved config and append-only log and
error lists; `prepare` constructs it as
`ProvideContext(environ_copy, local_state, config)` with fresh, empty log and
error lists. -/
structure ProvideContext where
  environ : Environ
  local_state : LocalState
  config : ProviderConfig
  logs : List String
  errors : List String

/-- A provider: `read_config(local_state, requirement)` and
`provide(requirement, context)`; `provide` returns the mutated context (the
working environment, the local state and the appended logs/errors). -/
structure Provider where
  read_config : LocalState → Requirement → ProviderConfig
  provide : Requirement → ProvideContext → ProvideContext

/-- A plan entry, exactly as built by prepare.py: `(provider, requirement)`. -/
abbrev PlanEntry := Provider × Requirement

/-- One record per plan entry for which the engine invoked `read_config` and
`provide` (the not-skipped branch of the execution loop), together with the
working environment at the moment the entry was reached. -/
structure TraceItem where
  provider : Provider
  requirement : Requirement
  env_before : Environ

/-- The entry a trace item was recorded for. -/
def TraceItem.entry (t : TraceItem) : PlanEntry := (t.provider, t.requirement)

/-- The engine's mutable state while the plan executes: the private working
environment copy, the local state handle, the lines printed so far to stdout
and stderr, and the invocation trace. -/
structure ExecState where
  environ : Environ
  local_state : LocalState
  stdout : List String
  stderr : List String
  trace : List TraceItem

/-- One iteration of the execution loop (prepare.py lines 94-108): check
`why_not_provided` against the working environment; if satisfied, skip;
otherwise `read_config`, build a fresh `ProvideContext` sharing the working
environment, run `provide`, then print the context's logs to stdout when its
error list is non-empty, and print its errors to stderr. -/
def execEntry (st : ExecState) (e : PlanEntry) : ExecState :=
  match e.2.why_not_provided st.environ with
  | none => st
  | some _ =>
    let config := e.1.read_config st.local_state e.2
    let ctx := e.1.provide e.2 (ProvideContext.mk st.environ st.local_state config [] [])
    { environ := ctx.environ
      local_state := ctx.local_state
      stdout := st.stdout ++ (if ctx.errors.isEmpty then [] else ctx.logs)
      stderr := st.stderr ++ ctx.errors
      trace := st.trace ++ [TraceItem.mk e.1 e.2 st.environ] }

/-- The execution loop: `for (provider, requirement) in plan: ...`. -/
def execPlan (plan : List PlanEntry) (st : ExecState) : ExecState :=
  plan.foldl execEntry st

/-- Plan building (prepare.py lines 70-73 and 89-92): the pairs
`(requirement, find_providers(registry))` in declaration order, then the
nested loop appending `(provider, requirement)` per provider.  Provider
resolution (`requirement.find_providers(provider_registry)`) is abstracted
as the function `registry`. -/
def planOf (requirements : List Requirement) (registry : Requirement → List Provider) :
    List PlanEntry :=
  ((requirements.map (fun r => (r, registry r))).foldl
    (fun acc rp => acc ++ rp.2.map (fun p => (p, rp.1))) [])

/-- The validation loop (prepare.py lines 110-117): re-evaluate
`why_not_provided` for every requirement of the project against the working
environment; print two lines per unsatisfied requirement and record failure. -/
def validate (requirements : List Requirement) (environ : Environ) : Bool × List String :=
  requirements.foldl
    (fun acc r =>
      match r.why_not_provided environ with
      | none => acc
      | some why_not =>
        (true, acc.2 ++ ["missing requirement to run this project: " ++ r.title,
                         "  " ++ why_not]))
    (false, [])

/-- The two diagnostic lines printed for each still-unsatisfied requirement. -/
def validation_messages (requirements : List Requirement) (environ : Environ) : List String :=
  requirements.flatMap
    (fun r =>
      match r.why_not_provided environ with
      | none => []
      | some why_not =>
        ["missing requirement to run this project: " ++ r.title, "  " ++ why_not])

/-- Everything a `prepare` call leaves behind: `return_value` is the value the
Python function returns (its docstring: "True if successful"); the other
fields are observations of its side effects — the caller-visible environment
after the call (mutated in place in Python), the final private working copy,
the final local state, the printed output and the invocation trace. -/
structure PrepareResult where
  return_value : Bool
  environ : Environ
  workingCopy : Environ
  local_state : LocalState
  stdout : List String
  stderr : List String
  trace : List TraceItem

/-- The value the Python `prepare` function returns to its caller. -/
def python_return_value (r : PrepareResult) : Bool := r.return_value

/-- The initial execution state: the deep copy of the caller's environment
(prepare.py line 66) and the loaded local state. -/
def initialState (environ : Environ) (ls : LocalState) : ExecState :=
  ExecState.mk environ ls [] [] []

/-- The core of `prepare` (prepare.py lines 66-128), after UI-mode validation
and the configure step: copy the environment, build and execute the plan,
validate every requirement, and either discard the working copy (failure,
return False) or run the commit loop over it (success, return True). -/
def prepareCore (requirements : List Requirement) (registry : Requirement → List Provider)
    (ls : LocalState) (environ : Environ) : PrepareResult :=
  let st := execPlan (planOf requirements registry) (initialState environ ls)
  let v := validate requirements st.environ
  if v.1 = true then
    PrepareResult.mk false environ st.environ st.local_state st.stdout (st.stderr ++ v.2) st.trace
  else
    PrepareResult.mk true (commitMerge environ st.environ) st.environ st.local_state st.stdout
      (st.stderr ++ v.2) st.trace

/-! ## UI-mode validation and the configure step -/

def UI_MODE_TEXT : String := "text"

def UI_MODE_BROWSER : String := "browser"

def UI_MODE_NOT_INTERACTIVE : String := "not_interactive"

/-- `_all_ui_modes` (prepare.py line 20). -/
def all_ui_modes : List String := [UI_MODE_TEXT, UI_MODE_BROWSER, UI_MODE_NOT_INTERACTIVE]

/-- The exceptions the modelled code can raise. -/
inductive PyError
  | valueError (msg : String)
  | unboundLocalError (name : String)
  | keyError (key : String)
deriving DecidableEq

/-- The two UI classes `_configure_prepare` can instantiate. -/
inductive PrepareUI
  | notInteractive
  | browser
deriving DecidableEq

/-- Modelled from the spec: `ui.configure_prepare(context)`
(`NotInteractivePrepareUI` / `BrowserPrepareUI`, module
`project.internal.prepare_ui`, absent from src/); the configure step
completes synchronously before execution begins (non-interactive mode is a
no-op) and its config-value effects are not needed by these claims, so it is
modelled as completing with no effect on the engine state. -/
def uiConfigurePrepare (_ui : PrepareUI) : Unit := ()

/-- `_configure_prepare` (prepare.py lines 23-29): the `if`/`elif` binds the
local variable `ui` only for the not-interactive and browser modes; any other
mode — including `UI_MODE_TEXT` — reaches `ui.configure_prepare(context)`
with `ui` unbound and raises `UnboundLocalError`. -/
def configurePrepareStep (ui_mode : String) : Except PyError Unit :=
  if ui_mode = UI_MODE_NOT_INTERACTIVE then
    Except.ok (uiConfigurePrepare PrepareUI.notInteractive)
  else if ui_mode = UI_MODE_BROWSER then
    Except.ok (uiConfigurePrepare PrepareUI.browser)
  else
    Except.error (PyError.unboundLocalError "ui")

/-- A project, as the engine consumes it: its ordered requirement list. -/
structure Project where
  requirements : List Requirement

/-- The full `prepare` entry point (prepare.py lines 32-128): reject an
unrecognized `ui_mode` with `ValueError` before any other work; then run the
configure step (which raises for `UI_MODE_TEXT`); then the core pipeline. -/
def prepare (project : Project) (registry : Requirement → List Provider) (ui_mode : String)
    (ls : LocalState) (environ : Environ) : Except PyError PrepareResult :=
  if ui_mode ∈ all_ui_modes then
    match configurePrepareStep ui_mode with
    | Except.error e => Except.error e
    | Except.ok _ => Except.ok (prepareCore project.requirements registry ls environ)
  else
    Except.error (PyError.valueError ("invalid UI mode " ++ ui_mode))

/-! ## Engine lemmas -/

theorem flatMap_map_eq {α β γ : Type} (g : α → β) (f : β → List γ) :
    ∀ l : List α, (l.map g).flatMap f = l.flatMap (fun x => f (g x)) := by
  intro l
  induction l with
  | nil => rfl
  | cons x t ih => simp [List.flatMap_cons, ih]

theorem foldl_append_eq_flatMap {α β : Type} (f : α → List β) :
    ∀ (l : List α) (acc : List β),
      l.foldl (fun a x => a ++ f x) acc = acc ++ l.flatMap f := by
  intro l
  induction l with
  | nil => intro acc; simp
  | cons x t ih => intro acc; simp [List.foldl_cons, ih, List.flatMap_cons, List.append_assoc]

/-- The plan built by the two nested loops is the flattening of the
`(requirement, providers)` pairs: requirement-declaration order first,
provider-resolution order second. -/
theorem planOf_eq (requirements : List Requirement) (registry : Requirement → List Provider) :
    planOf requirements registry
      = requirements.flatMap (fun r => (registry r).map (fun p => (p, r))) := by
  unfold planOf
  rw [foldl_append_eq_flatMap (fun rp : Requirement × List Provider =>
        rp.2.map (fun p => (p, rp.1)))]
  rw [flatMap_map_eq]
  rfl

theorem validate_aux (environ : Environ) (requirements : List Requirement) :
    ∀ (b : Bool) (msgs : List String),
      requirements.foldl
        (fun acc r =>
          match r.why_not_provided environ with
          | none => acc
          | some why_not =>
            (true, acc.2 ++ ["missing requirement to run this project: " ++ r.title,
                             "  " ++ why_not]))
        (b, msgs)
      = (b || requirements.any (fun r => (r.why_not_provided environ).isSome),
         msgs ++ validation_messages requirements environ) := by
  induction requirements with
  | nil => intro b msgs; simp [validation_messages]
  | cons r tl ih =>
    intro b msgs
    cases hr : r.why_not_provided environ with
    | none => simp [List.foldl_cons, hr, ih, validation_messages, List.flatMap_cons]
    | some why_not =>
      simp [List.foldl_cons, hr, ih, validation_messages, List.flatMap_cons, List.append_assoc]

/-- The validation loop records failure exactly when some requirement is still
unsatisfied, and prints the two diagnostic lines per unsatisfied requirement
in declaration order. -/
theorem validate_eq (requirements : List Requirement) (environ : Environ) :
    validate requirements environ
      = (requirements.any (fun r => (r.why_not_provided environ).isSome),
         validation_messages requirements environ) := by
  have h := validate_aux environ requirements false []
  simpa [validate] using h

/-- Combine an already-accumulated engine state with the outcome of running
from a fresh output slate: the continuation's effect depends only on the
working environment and the local state. -/
def mergeState (st st' : ExecState) : ExecState :=
  ExecState.mk st'.environ st'.local_state (st.stdout ++ st'.stdout) (st.stderr ++ st'.stderr)
    (st.trace ++ st'.trace)

theorem mergeState_assoc (st a b : ExecState) :
    mergeState st (mergeState a b) = mergeState (mergeState st a) b := by
  simp [mergeState, List.append_assoc]

theorem execEntry_frame (st : ExecState) (e : PlanEntry) :
    execEntry st e = mergeState st (execEntry (initialState st.environ st.local_state) e) := by
  cases h : e.2.why_not_provided st.environ with
  | none => simp [execEntry, initialState, mergeState, h]
  | some why => simp [execEntry, initialState, mergeState, h]

/-- A plan's execution from any accumulated state equals its execution from a
fresh output slate, with the already-printed lines and the existing trace as
prefixes: nothing an earlier entry printed or recorded (in particular no
accumulated error) feeds back into later execution. -/
theorem execPlan_frame (plan : List PlanEntry) :
    ∀ st : ExecState,
      execPlan plan st = mergeState st (execPlan plan (initialState st.environ st.local_state)) := by
  induction plan with
  | nil => intro st; simp [execPlan, mergeState, initialState]
  | cons e t ih =>
    intro st
    have h1 : execPlan (e :: t) st = execPlan t (execEntry st e) := rfl
    have h2 : execPlan (e :: t) (initialState st.environ st.local_state)
        = execPlan t (execEntry (initialState st.environ st.local_state) e) := rfl
    rw [h1, h2, ih (execEntry st e),
        ih (execEntry (initialState st.environ st.local_state) e), execEntry_frame st e]
    rw [mergeState_assoc]
    simp [mergeState, initialState]

/-- Every invocation the engine records is a sublist of the plan, in plan
order: entries are never reordered. -/
theorem execPlan_trace_sublist (plan : List PlanEntry) :
    ∀ st : ExecState,
      List.Sublist ((execPlan plan st).trace.map TraceItem.entry)
        (st.trace.map TraceItem.entry ++ plan) := by
  induction plan with
  | nil =>
    intro st
    simp [execPlan]
  | cons e t ih =>
    intro st
    have h1 : execPlan (e :: t) st = execPlan t (execEntry st e) := rfl
    rw [h1]
    cases h : e.2.why_not_provided st.environ with
    | none =>
      have hskip : execEntry st e = st := by simp [execEntry, h]
      rw [hskip]
      exact (ih st).trans (List.Sublist.append_left (List.sublist_cons_self e t) _)
    | some why =>
      have htr : (execEntry st e).trace = st.trace ++ [TraceItem.mk e.1 e.2 st.environ] := by
        simp [execEntry, h]
      have hsub := ih (execEntry st e)
      rw [htr] at hsub
      simpa [List.map_append, TraceItem.entry, List.append_assoc] using hsub

/-- Every invocation the engine records was of a requirement that was still
unsatisfied against the working environment at the moment it was reached. -/
theorem execPlan_trace_unmet (plan : List PlanEntry) :
    ∀ st : ExecState,
      (∀ t ∈ st.trace, (t.requirement.why_not_provided t.env_before).isSome = true) →
      ∀ t ∈ (execPlan plan st).trace,
        (t.requirement.why_not_provided t.env_before).isSome = true := by
  induction plan with
  | nil => intro st h; simpa [execPlan] using h
  | cons e tl ih =>
    intro st h
    have h1 : execPlan (e :: tl) st = execPlan tl (execEntry st e) := rfl
    rw [h1]
    apply ih
    intro t ht
    cases he : e.2.why_not_provided st.environ with
    | none =>
      have hskip : execEntry st e = st := by simp [execEntry, he]
      rw [hskip] at ht
      exact h t ht
    | some why =>
      have htr : (execEntry st e).trace = st.trace ++ [TraceItem.mk e.1 e.2 st.environ] := by
        simp [execEntry, he]
      rw [htr] at ht
      rcases List.mem_append.mp ht with h₁ | h₂
      · exact h t h₁
      · have ht2 : t = TraceItem.mk e.1 e.2 st.environ := by simpa using h₂
        subst ht2
        simp [he]

/-- A plan all of whose requirements are already satisfied leaves the engine
state untouched: nothing runs, nothing is printed, nothing is traced. -/
theorem execPlan_all_satisfied (plan : List PlanEntry) :
    ∀ st : ExecState,
      (∀ e ∈ plan, e.2.why_not_provided st.environ = none) → execPlan plan st = st := by
  induction plan with
  | nil => intro st _; rfl
  | cons e tl ih =>
    intro st h
    have he : e.2.why_not_provided st.environ = none := h e (by simp)
    have hskip : execEntry st e = st := by simp [execEntry, he]
    have h1 : execPlan (e :: tl) st = execPlan tl (execEntry st e) := rfl
    rw [h1, hskip]
    exact ih st (fun e' he' => h e' (List.mem_cons_of_mem e he'))

/-! ## Branch descriptions of prepareCore -/

theorem prepareCore_fail (requirements : List Requirement)
    (registry : Requirement → List Provider) (ls : LocalState) (environ : Environ)
    (h : requirements.any (fun r =>
        (r.why_not_provided
          (execPlan (planOf requirements registry) (initialState environ ls)).environ).isSome)
      = true) :
    prepareCore requirements registry ls environ =
      PrepareResult.mk false environ
        (execPlan (planOf requirements registry) (initialState environ ls)).environ
        (execPlan (planOf requirements registry) (initialState environ ls)).local_state
        (execPlan (planOf requirements registry) (initialState environ ls)).stdout
        ((execPlan (planOf requirements registry) (initialState environ ls)).stderr
          ++ validation_messages requirements
              (execPlan (planOf requirements registry) (initialState environ ls)).environ)
        (execPlan (planOf requirements registry) (initialState environ ls)).trace := by
  simp [prepareCore, validate_eq, h]

theorem prepareCore_ok (requirements : List Requirement)
    (registry : Requirement → List Provider) (ls : LocalState) (environ : Environ)
    (h : requirements.any (fun r =>
        (r.why_not_provided
          (execPlan (planOf requirements registry) (initialState environ ls)).environ).isSome)
      = false) :
    prepareCore requirements registry ls environ =
      PrepareResult.mk true
        (commitMerge environ
          (execPlan (planOf requirements registry) (initialState environ ls)).environ)
        (execPlan (planOf requirements registry) (initialState environ ls)).environ
        (execPlan (planOf requirements registry) (initialState environ ls)).local_state
        (execPlan (planOf requirements registry) (initialState environ ls)).stdout
        ((execPlan (planOf requirements registry) (initialState environ ls)).stderr
          ++ validation_messages requirements
              (execPlan (planOf requirements registry) (initialState environ ls)).environ)
        (execPlan (planOf requirements registry) (initialState environ ls)).trace := by
  simp [prepareCore, validate_eq, h]

theorem prepareCore_trace_eq (requirements : List Requirement)
    (registry : Requirement → List Provider) (ls : LocalState) (environ : Environ) :
    (prepareCore requirements registry ls environ).trace
      = (execPlan (planOf requirements registry) (initialState environ ls)).trace := by
  simp only [prepareCore, validate_eq]
  split <;> rfl

theorem prepareCore_workingCopy_eq (requirements : List Requirement)
    (registry : Requirement → List Provider) (ls : LocalState) (environ : Environ) :
    (prepareCore requirements registry ls environ).workingCopy
      = (execPlan (planOf requirements registry) (initialState environ ls)).environ := by
  simp only [prepareCore, validate_eq]
  split <;> rfl

/-! ## Claim theorems for the prepare engine -/

/-- C1: a prepare call mutates the caller-visible environment all-or-nothing:
the call reports failure exactly when some requirement is still unsatisfied
after plan execution; on failure the caller's environment is key-for-key
unchanged; on success every key of the private working copy is merged into
the caller's environment (a key the working copy wrote ends with the working
copy's value, any other key keeps its caller-side value — writing a key whose
value already agrees is observationally the identity, so this is exactly the
code's merge of every differing-or-absent key). -/
theorem prepare_mutates_all_or_nothing (requirements : List Requirement)
    (registry : Requirement → List Provider) (ls : LocalState) (environ : Environ) :
    ((prepareCore requirements registry ls environ).return_value = false ↔
      ∃ r ∈ requirements,
        (r.why_not_provided
          (prepareCore requirements registry ls environ).workingCopy).isSome = true)
    ∧ ((prepareCore requirements registry ls environ).return_value = false →
        (prepareCore requirements registry ls environ).environ = environ)
    ∧ ((prepareCore requirements registry ls environ).return_value = true →
        ∀ key, lookupAssoc (prepareCore requirements registry ls environ).environ key =
          match lookupLast (prepareCore requirements registry ls environ).workingCopy key with
          | some v => some v
          | none => lookupAssoc environ key) := by
  by_cases h : requirements.any (fun r =>
      (r.why_not_provided
        (execPlan (planOf requirements registry) (initialState environ ls)).environ).isSome)
    = true
  · rw [prepareCore_fail requirements registry ls environ h]
    refine ⟨⟨fun _ => List.any_eq_true.mp h, fun _ => rfl⟩, fun _ => rfl, fun hc => by simp at hc⟩
  · have h' : requirements.any (fun r =>
        (r.why_not_provided
          (execPlan (planOf requirements registry) (initialState environ ls)).environ).isSome)
      = false := by simpa using h
    rw [prepareCore_ok requirements registry ls environ h']
    refine ⟨⟨fun hc => by simp at hc, fun hex => ?_⟩, fun hc => by simp at hc,
            fun _ key => lookupAssoc_commitMerge _ _ _⟩
    exact absurd (List.any_eq_true.mpr hex) (by simp [h'])

theorem prepare_mutates_all_or_nothing_witness :
    (prepareCore [Requirement.mk "VAR_A" "requirement A" (fun _ => some "VAR_A is missing")]
        (fun _ => []) (LocalState.mk [] []) [("HOME", "/home/u")]).return_value = false
    ∧ (prepareCore [Requirement.mk "VAR_A" "requirement A" (fun _ => some "VAR_A is missing")]
        (fun _ => []) (LocalState.mk [] []) [("HOME", "/home/u")]).environ
      = [("HOME", "/home/u")] :=
  ⟨by decide,
   (prepare_mutates_all_or_nothing
      [Requirement.mk "VAR_A" "requirement A" (fun _ => some "VAR_A is missing")]
      (fun _ => []) (LocalState.mk [] []) [("HOME", "/home/u")]).2.1 (by decide)⟩

/-- C2: after the full plan has executed, prepare re-evaluates
`why_not_provided` against the working environment for every requirement of
the project; the call reports failure exactly when at least one requirement
still has a reason, and each such requirement contributes its two diagnostic
lines (title, then reason) to the printed stderr diagnostics. -/
theorem prepare_validation_reporting (requirements : List Requirement)
    (registry : Requirement → List Provider) (ls : LocalState) (environ : Environ) :
    ((prepareCore requirements registry ls environ).return_value = false ↔
      ∃ r ∈ requirements,
        (r.why_not_provided
          (prepareCore requirements registry ls environ).workingCopy).isSome = true)
    ∧ ∃ pre, (prepareCore requirements registry ls environ).stderr
        = pre ++ validation_messages requirements
            (prepareCore requirements registry ls environ).workingCopy := by
  by_cases h : requirements.any (fun r =>
      (r.why_not_provided
        (execPlan (planOf requirements registry) (initialState environ ls)).environ).isSome)
    = true
  · rw [prepareCore_fail requirements registry ls environ h]
    exact ⟨⟨fun _ => List.any_eq_true.mp h, fun _ => rfl⟩,
           ⟨(execPlan (planOf requirements registry) (initialState environ ls)).stderr, rfl⟩⟩
  · have h' : requirements.any (fun r =>
        (r.why_not_provided
          (execPlan (planOf requirements registry) (initialState environ ls)).environ).isSome)
      = false := by simpa using h
    rw [prepareCore_ok requirements registry ls environ h']
    refine ⟨⟨fun hc => by simp at hc, fun hex => ?_⟩,
            ⟨(execPlan (planOf requirements registry) (initialState environ ls)).stderr, rfl⟩⟩
    exact absurd (List.any_eq_true.mpr hex) (by simp [h'])

/-- C3: the execution plan is exactly the flattening of the
`(requirement, providers)` pairs — requirement-declaration order first,
provider-resolution order second — and the entries the engine invokes form a
sublist of that plan in plan order: never reordered, never executed ahead of
an earlier entry. -/
theorem plan_flattening_and_order (requirements : List Requirement)
    (registry : Requirement → List Provider) (ls : LocalState) (environ : Environ) :
    planOf requirements registry
      = requirements.flatMap (fun r => (registry r).map (fun p => (p, r)))
    ∧ List.Sublist ((prepareCore requirements registry ls environ).trace.map TraceItem.entry)
        (planOf requirements registry) := by
  refine ⟨planOf_eq requirements registry, ?_⟩
  rw [prepareCore_trace_eq]
  have h := execPlan_trace_sublist (planOf requirements registry) (initialState environ ls)
  simpa [initialState] using h

/-- C4: a plan entry whose requirement is satisfied against the working
environment at the moment the entry is reached is skipped entirely (every
recorded invocation — the branch that calls both `read_config` and `provide`
— was of a requirement that was unsatisfied at that moment); consequently a
run whose plan entries are all satisfied in the starting environment, such as
a second prepare run over an already-merged environment, invokes no provider
at all and leaves the working copy untouched. -/
theorem satisfied_entries_skipped (requirements : List Requirement)
    (registry : Requirement → List Provider) (ls : LocalState) (environ : Environ) :
    (∀ t ∈ (prepareCore requirements registry ls environ).trace,
        (t.requirement.why_not_provided t.env_before).isSome = true)
    ∧ ((∀ e ∈ planOf requirements registry, e.2.why_not_provided environ = none) →
        (prepareCore requirements registry ls environ).trace = []
        ∧ (prepareCore requirements registry ls environ).workingCopy = environ) := by
  constructor
  · rw [prepareCore_trace_eq]
    exact execPlan_trace_unmet (planOf requirements registry) (initialState environ ls)
      (by intro t ht; simp [initialState] at ht)
  · intro hall
    have hfix := execPlan_all_satisfied (planOf requirements registry) (initialState environ ls)
      (fun e he => hall e he)
    rw [prepareCore_trace_eq, prepareCore_workingCopy_eq, hfix]
    exact ⟨rfl, rfl⟩

def reqSatisfied : Requirement := Requirement.mk "VAR_S" "satisfied requirement" (fun _ => none)

def spyProvider : Provider :=
  Provider.mk (fun _ _ => [])
    (fun _ ctx => { ctx with environ := updateAssoc ctx.environ "SPY" "ran" })

def spyRegistry : Requirement → List Provider := fun _ => [spyProvider]

theorem satisfied_entries_skipped_witness :
    (prepareCore [reqSatisfied] spyRegistry (LocalState.mk [] []) []).trace = []
    ∧ (prepareCore [reqSatisfied] spyRegistry (LocalState.mk [] []) []).workingCopy = [] := by
  apply (satisfied_entries_skipped [reqSatisfied] spyRegistry (LocalState.mk [] []) []).2
  intro e he
  have hplan : planOf [reqSatisfied] spyRegistry = [(spyProvider, reqSatisfied)] := rfl
  rw [hplan] at he
  have he' : e = (spyProvider, reqSatisfied) := by simpa using he
  subst he'
  rfl

/-- C5: a plan entry whose provider recorded errors does not prevent any
later entry from being evaluated and executed: after any entry completes,
execution proceeds to the rest of the plan (first conjunct); everything the
remaining plan does is determined by the working environment and the local
state alone — the lines already printed (in particular any surfaced provider
errors) are mere output prefixes that never feed back into later execution
(second conjunct); and whatever an entry did, the immediately following
entry's provider is invoked whenever its requirement is still unsatisfied at
that point (third conjunct). -/
theorem provider_errors_never_block (e e' : PlanEntry) (plan rest : List PlanEntry)
    (st : ExecState) :
    execPlan (e :: rest) st = execPlan rest (execEntry st e)
    ∧ execPlan plan st = mergeState st (execPlan plan (initialState st.environ st.local_state))
    ∧ (e'.2.why_not_provided (execEntry st e).environ ≠ none →
        (execPlan [e, e'] st).trace
          = (execEntry st e).trace
            ++ [TraceItem.mk e'.1 e'.2 (execEntry st e).environ]) := by
  refine ⟨rfl, execPlan_frame plan st, ?_⟩
  intro h
  cases heq : e'.2.why_not_provided (execEntry st e).environ with
  | none => exact absurd heq h
  | some why =>
    have h2 : execPlan [e, e'] st = execEntry (execEntry st e) e' := rfl
    rw [h2]
    generalize hst2 : execEntry st e = st2 at heq ⊢
    simp [execEntry, heq]

def reqNeedsA : Requirement :=
  Requirement.mk "VAR_A" "requirement A"
    (fun env => if lookupAssoc env "VAR_A" = some "ok" then none else some "VAR_A is not set")

def reqNeedsB : Requirement :=
  Requirement.mk "VAR_B" "requirement B"
    (fun env => if lookupAssoc env "VAR_B" = some "ok" then none else some "VAR_B is not set")

def failingProvider : Provider :=
  Provider.mk (fun _ _ => []) (fun _ ctx => { ctx with errors := ctx.errors ++ ["boom"] })

def succeedingProvider : Provider :=
  Provider.mk (fun _ _ => [])
    (fun r ctx => { ctx with environ := updateAssoc ctx.environ r.env_var "ok" })

theorem provider_errors_never_block_witness :
    reqNeedsB.why_not_provided
        (execEntry (initialState [] (LocalState.mk [] [])) (failingProvider, reqNeedsA)).environ
      ≠ none
    ∧ (execPlan [(failingProvider, reqNeedsA), (succeedingProvider, reqNeedsB)]
          (initialState [] (LocalState.mk [] []))).trace
        = (execEntry (initialState [] (LocalState.mk [] [])) (failingProvider, reqNeedsA)).trace
          ++ [TraceItem.mk succeedingProvider reqNeedsB
                (execEntry (initialState [] (LocalState.mk [] []))
                  (failingProvider, reqNeedsA)).environ] := by
  have h : reqNeedsB.why_not_provided
      (execEntry (initialState [] (LocalState.mk [] [])) (failingProvider, reqNeedsA)).environ
      ≠ none := by decide
  exact ⟨h, (provider_errors_never_block (failingProvider, reqNeedsA)
      (succeedingProvider, reqNeedsB) [] [] (initialState [] (LocalState.mk [] []))).2.2 h⟩

/-- C6: `prepare` rejects an unrecognized `ui_mode` with `ValueError` at call
entry, but the claim that each of the three recognized modes then completes
the configure step without exception is contradicted by the code:
`_configure_prepare` binds its local variable `ui` only for the
not-interactive and browser modes, so the recognized mode `UI_MODE_TEXT`
passes the `_all_ui_modes` validation and then raises `UnboundLocalError`. -/
theorem ui_mode_text_raises_unbound_local :
    prepare (Project.mk []) (fun _ => []) UI_MODE_TEXT (LocalState.mk [] []) []
      = Except.error (PyError.unboundLocalError "ui")
    ∧ (∃ r, prepare (Project.mk []) (fun _ => []) UI_MODE_NOT_INTERACTIVE
          (LocalState.mk [] []) [] = Except.ok r)
    ∧ (∃ r, prepare (Project.mk []) (fun _ => []) UI_MODE_BROWSER
          (LocalState.mk [] []) [] = Except.ok r)
    ∧ prepare (Project.mk []) (fun _ => []) "bogus" (LocalState.mk [] []) []
      = Except.error (PyError.valueError "invalid UI mode bogus") :=
  ⟨rfl, ⟨_, rfl⟩, ⟨_, rfl⟩, rfl⟩

/-- C7 counterexample: the value the Python `prepare` function returns is a
bare boolean ("Returns: True if successful"), not a structured result: two
failing calls whose sets of still-unmet requirements differ (requirement A
missing versus requirement B missing) return identical values, so the return
value cannot carry the (title, reason) pairs, the logs or the errors — those
appear only as printed diagnostics. -/
theorem prepare_returns_only_bool_counterexample :
    python_return_value
        (prepareCore [Requirement.mk "VAR_A" "requirement A" (fun _ => some "VAR_A is missing")]
          (fun _ => []) (LocalState.mk [] []) [])
      = python_return_value
          (prepareCore [Requirement.mk "VAR_B" "requirement B" (fun _ => some "VAR_B is missing")]
            (fun _ => []) (LocalState.mk [] []) [])
    ∧ (prepareCore [Requirement.mk "VAR_A" "requirement A" (fun _ => some "VAR_A is missing")]
          (fun _ => []) (LocalState.mk [] []) []).stderr
      ≠ (prepareCore [Requirement.mk "VAR_B" "requirement B" (fun _ => some "VAR_B is missing")]
          (fun _ => []) (LocalState.mk [] []) []).stderr := by
  constructor
  · decide
  · decide

/-- C7 amended: `prepare` returns only a boolean success flag — true exactly
when every requirement is satisfied against the final working environment —
while the still-unmet requirements are reported as printed stderr diagnostics
(two lines each: title, then the specific reason), not through the return
value. -/
theorem prepare_reports_via_bool_and_stderr (requirements : List Requirement)
    (registry : Requirement → List Provider) (ls : LocalState) (environ : Environ) :
    (python_return_value (prepareCore requirements registry ls environ) = true ↔
      ∀ r ∈ requirements,
        r.why_not_provided (prepareCore requirements registry ls environ).workingCopy = none)
    ∧ ∃ pre, (prepareCore requirements registry ls environ).stderr
        = pre ++ validation_messages requirements
            (prepareCore requirements registry ls environ).workingCopy := by
  by_cases h : requirements.any (fun r =>
      (r.why_not_provided
        (execPlan (planOf requirements registry) (initialState environ ls)).environ).isSome)
    = true
  · rw [prepareCore_fail requirements registry ls environ h]
    refine ⟨⟨fun hc => by simp [python_return_value] at hc, fun hall => ?_⟩,
            ⟨(execPlan (planOf requirements registry) (initialState environ ls)).stderr, rfl⟩⟩
    obtain ⟨r, hr, hp⟩ := List.any_eq_true.mp h
    rw [hall r hr] at hp
    simp at hp
  · have h' : requirements.any (fun r =>
        (r.why_not_provided
          (execPlan (planOf requirements registry) (initialState environ ls)).environ).isSome)
      = false := by simpa using h
    rw [prepareCore_ok requirements registry ls environ h']
    refine ⟨⟨fun _ r hr => ?_, fun _ => rfl⟩,
            ⟨(execPlan (planOf requirements registry) (initialState environ ls)).stderr, rfl⟩⟩
    cases hwn : r.why_not_provided
        (execPlan (planOf requirements registry) (initialState environ ls)).environ with
    | none => rfl
    | some why =>
      have : requirements.any (fun r =>
          (r.why_not_provided
            (execPlan (planOf requirements registry) (initialState environ ls)).environ).isSome)
        = true := List.any_eq_true.mpr ⟨r, hr, by simp [hwn]⟩
      rw [h'] at this
      cases this

/-- C10: the commit step only adds or overwrites keys in the caller's
environment and never deletes one: a key the final working copy does not
mention keeps its caller-side value unchanged (in particular a key a provider
popped from the working copy survives in the caller's environment on
success), and any key present before the call is still present after it. -/
theorem commit_never_deletes (requirements : List Requirement)
    (registry : Requirement → List Provider) (ls : LocalState) (environ : Environ)
    (key : String) :
    (lookupLast (prepareCore requirements registry ls environ).workingCopy key = none →
      lookupAssoc (prepareCore requirements registry ls environ).environ key
        = lookupAssoc environ key)
    ∧ (∀ v, lookupAssoc environ key = some v →
        ∃ v', lookupAssoc (prepareCore requirements registry ls environ).environ key = some v') := by
  by_cases h : requirements.any (fun r =>
      (r.why_not_provided
        (execPlan (planOf requirements registry) (initialState environ ls)).environ).isSome)
    = true
  · rw [prepareCore_fail requirements registry ls environ h]
    exact ⟨fun _ => rfl, fun v hv => ⟨v, hv⟩⟩
  · have h' : requirements.any (fun r =>
        (r.why_not_provided
          (execPlan (planOf requirements registry) (initialState environ ls)).environ).isSome)
      = false := by simpa using h
    rw [prepareCore_ok requirements registry ls environ h']
    dsimp only
    constructor
    · intro hnone
      rw [lookupAssoc_commitMerge, hnone]
    · intro v hv
      rw [lookupAssoc_commitMerge]
      cases hl : lookupLast
          (execPlan (planOf requirements registry) (initialState environ ls)).environ key with
      | some v' => exact ⟨v', by simp⟩
      | none => exact ⟨v, by simp [hv]⟩

def reqNeedsX : Requirement :=
  Requirement.mk "VAR_X" "X requirement"
    (fun env => if lookupAssoc env "VAR_X" = some "1" then none else some "VAR_X is not set")

/-- A provider that, like `DownloadProvider.set_config_values_as_strings`,
removes a key from the private working copy (here the unrelated key `KEEP`)
while satisfying its requirement. -/
def popProvider : Provider :=
  Provider.mk (fun _ _ => [])
    (fun r ctx =>
      { ctx with environ := updateAssoc (popAssoc ctx.environ "KEEP") r.env_var "1" })

def popRegistry : Requirement → List Provider := fun _ => [popProvider]

theorem commit_never_deletes_witness :
    lookupLast (prepareCore [reqNeedsX] popRegistry (LocalState.mk [] [])
        [("KEEP", "kept")]).workingCopy "KEEP" = none
    ∧ (prepareCore [reqNeedsX] popRegistry (LocalState.mk [] [])
        [("KEEP", "kept")]).return_value = true
    ∧ lookupAssoc (prepareCore [reqNeedsX] popRegistry (LocalState.mk [] [])
        [("KEEP", "kept")]).environ "KEEP" = lookupAssoc [("KEEP", "kept")] "KEEP" :=
  ⟨by decide, by decide,
   (commit_never_deletes [reqNeedsX] popRegistry (LocalState.mk [] [])
      [("KEEP", "kept")] "KEEP").1 (by decide)⟩

/-! ## Unprepare engine (prepare.py lines 131-157) -/

/-- Python `repr` of a string without embedded quotes: single-quoted. -/
def pyReprString (s : String) : String := "\x27" ++ s ++ "\x27"

/-- Python `repr` of a command (a list of strings). -/
def pyReprCommand (c : Command) : String :=
  "[" ++ String.intercalate ", " (c.map pyReprString) ++ "]"

/-- The commands recorded under a service's `shutdown_commands` key, empty
when the key is absent. -/
def shutdown_commands_of (state : RunState) : List Command :=
  match lookupAssoc state "shutdown_commands" with
  | some commands => commands
  | none => []

/-- What an `unprepare` call leaves behind: the final local state (with its
recorded `save()` snapshots), the printed lines, and the commands passed to
`subprocess.call` with their exit codes, in invocation order. -/
structure UnprepareResult where
  local_state : LocalState
  stdout : List String
  executed : List (Command × Int)

/-- One iteration of the unprepare loop: if the service's run state carries
`shutdown_commands`, run each command through `subprocess.call` (exit codes
supplied by `exec`), printing the command and its exit code; then — whatever
the exit codes were — clear the service's run state to an empty dict and
`save()`. -/
def unprepareStep (exec : Command → Int) (acc : UnprepareResult) (entry : String × RunState) :
    UnprepareResult :=
  let runs :=
    match lookupAssoc entry.2 "shutdown_commands" with
    | some commands => commands.map (fun c => (c, exec c))
    | none => []
  UnprepareResult.mk
    (saveLocalState (set_service_run_state acc.local_state entry.1 []))
    (acc.stdout ++ runs.flatMap
      (fun cr => ["Running " ++ pyReprCommand cr.1, "  exited with " ++ toString cr.2]))
    (acc.executed ++ runs)

/-- `unprepare`: iterate over (a snapshot of) the recorded service run
states, attempting shutdown and clearing each entry. -/
def unprepare (ls : LocalState) (exec : Command → Int) : UnprepareResult :=
  ls.run_states.foldl (unprepareStep exec) (UnprepareResult.mk ls [] [])

theorem unprepareStep_runs_eq {α : Type} (entry : String × RunState) (f : Command → α) :
    (match lookupAssoc entry.2 "shutdown_commands" with
     | some commands => commands.map f
     | none => []) = (shutdown_commands_of entry.2).map f := by
  cases h : lookupAssoc entry.2 "shutdown_commands" <;> simp [shutdown_commands_of, h]

theorem unprepare_fold_executed (exec : Command → Int) :
    ∀ (l : List (String × RunState)) (acc : UnprepareResult),
      (l.foldl (unprepareStep exec) acc).executed
        = acc.executed
          ++ l.flatMap (fun entry => (shutdown_commands_of entry.2).map (fun c => (c, exec c))) := by
  intro l
  induction l with
  | nil => intro acc; simp
  | cons entry t ih =>
    intro acc
    rw [List.foldl_cons, ih]
    simp [unprepareStep, unprepareStep_runs_eq, List.flatMap_cons, List.append_assoc]

theorem unprepare_fold_run_states (exec : Command → Int) :
    ∀ (l : List (String × RunState)) (acc : UnprepareResult),
      (l.foldl (unprepareStep exec) acc).local_state.run_states
        = l.foldl (fun rs entry => updateAssoc rs entry.1 []) acc.local_state.run_states := by
  intro l
  induction l with
  | nil => intro acc; rfl
  | cons entry t ih =>
    intro acc
    rw [List.foldl_cons, List.foldl_cons, ih]
    rfl

theorem lookup_clear_fold :
    ∀ (l : List (String × RunState)) (rs : List (String × RunState)) (key : String),
      lookupAssoc (l.foldl (fun a e => updateAssoc a e.1 ([] : RunState)) rs) key
        = if key ∈ l.map Prod.fst then some [] else lookupAssoc rs key := by
  intro l
  induction l with
  | nil => intro rs key; simp
  | cons e t ih =>
    intro rs key
    rw [List.foldl_cons, ih]
    by_cases h₁ : key ∈ t.map Prod.fst
    · simp [h₁]
    · by_cases h₂ : e.1 = key
      · simp [h₁, h₂, lookupAssoc_updateAssoc]
      · have h₂' : ¬ key = e.1 := fun hk => h₂ hk.symm
        simp [h₁, h₂, h₂', lookupAssoc_updateAssoc]

theorem unprepare_fold_saves (exec : Command → Int) :
    ∀ (l : List (String × RunState)) (acc : UnprepareResult),
      (l.foldl (unprepareStep exec) acc).local_state.saves.length
        = acc.local_state.saves.length + l.length := by
  intro l
  induction l with
  | nil => intro acc; simp
  | cons entry t ih =>
    intro acc
    rw [List.foldl_cons, ih]
    simp [unprepareStep, saveLocalState, set_service_run_state]
    omega

/-- C8: `unprepare` runs every recorded shutdown command of every recorded
service, in recorded order, whatever exit codes the commands return (the
executed sequence does not depend on the codes, so a non-zero exit blocks
neither later commands nor later services); afterwards every service's
run-state entry is cleared to an empty dict, and the state store was
persisted once per service (one `save()` snapshot each). -/
theorem unprepare_runs_and_clears (ls : LocalState) (exec : Command → Int) :
    (unprepare ls exec).executed
      = ls.run_states.flatMap
          (fun entry => (shutdown_commands_of entry.2).map (fun c => (c, exec c)))
    ∧ (∀ name ∈ ls.run_states.map Prod.fst,
        lookupAssoc (unprepare ls exec).local_state.run_states name = some [])
    ∧ (unprepare ls exec).local_state.saves.length
        = ls.saves.length + ls.run_states.length := by
  refine ⟨?_, ?_, ?_⟩
  · rw [unprepare, unprepare_fold_executed]
    rfl
  · intro name hname
    rw [unprepare, unprepare_fold_run_states, lookup_clear_fold]
    simp [hname]
  · rw [unprepare, unprepare_fold_saves]

theorem unprepare_runs_and_clears_witness :
    lookupAssoc (unprepare
        (LocalState.mk [("db", [("shutdown_commands", [["kill", "42"]])])] [])
        (fun _ => 3)).local_state.run_states "db" = some []
    ∧ (unprepare (LocalState.mk [("db", [("shutdown_commands", [["kill", "42"]])])] [])
        (fun _ => 3)).executed = [(["kill", "42"], 3)] :=
  ⟨(unprepare_runs_and_clears
      (LocalState.mk [("db", [("shutdown_commands", [["kill", "42"]])])] [])
      (fun _ => 3)).2.1 "db" (by decide),
   by decide⟩

/-! ## DownloadProvider (download.py)

`DownloadProvider.provide` runs inside a context that — per the provider
contract — carries a mode string, the pre-computed analysis (the resolved
config `source` and an already-downloaded file, if any), the working
environment and the log/error lists.  The network itself is out of scope:
the outcome `run_sync(download.run)` would produce is supplied by the
context's `download_result` oracle field. -/

def PROVIDE_MODE_CHECK : String := "check"

/-- What the blocking download would yield: an HTTP response code, or an
exception raised while downloading. -/
inductive DownloadOutcome
  | response (code : Nat)
  | raised (msg : String)
deriving DecidableEq

/-- The part of the provider analysis `provide` consults:
`analysis.config[source]` and `analysis.existing_filename`. -/
structure DownloadAnalysis where
  config_source : String
  existing_filename : Option String
deriving DecidableEq

/-- `context.status.analysis`. -/
structure DownloadStatus where
  analysis : DownloadAnalysis
deriving DecidableEq

/-- Modelled from the spec: the provide context as `DownloadProvider` uses it
(`ProvideContext` of module `project.provide`, absent from src/): the working
environment, the mode (`check` versus provide), the status analysis, and the
append-only log and error lists; `download_result` is the oracle for the
out-of-scope network transfer. -/
structure DLContext where
  environ : Environ
  mode : String
  status : DownloadStatus
  logs : List String
  errors : List String
  download_result : DownloadOutcome
deriving DecidableEq

/-- `context.append_log(msg)`. -/
def DLContext.append_log (ctx : DLContext) (msg : String) : DLContext :=
  { ctx with logs := ctx.logs ++ [msg] }

/-- `context.append_error(msg)`. -/
def DLContext.append_error (ctx : DLContext) (msg : String) : DLContext :=
  { ctx with errors := ctx.errors ++ [msg] }

/-- `os.path.abspath(os.path.join(project_dir, filename))`: with an absolute
`PROJECT_DIR` the joined path is already absolute, so `abspath` is the
identity and the operation is modelled as the plain join. -/
def os_path_join (directory filename : String) : String := directory ++ "/" ++ filename

/-- Modelled from the spec: `super().provide` — `EnvVarProvider.provide`
(module `project.plugins.provider`, absent from src/); per the provider
contract it completes without raising and reports any failure through
`context.errors`; for a download requirement whose config source is the
download itself it contributes no environment change, so it is modelled as
the identity on the context. -/
def envVarSuperProvide (_requirement_env_var : String) (ctx : DLContext) : DLContext := ctx

/-- A download requirement's fields used by the provider. -/
structure DownloadRequirement where
  env_var : String
  url : String
  filename : String
deriving DecidableEq

/-- `DownloadProvider._provide_download` (download.py lines 85-106): reuse an
already-downloaded file (logging it); otherwise resolve the destination under
`context.environ[PROJECT_DIR]` — a lookup that raises `KeyError` when the
working environment has no `PROJECT_DIR` — and run the download, turning a
non-200 response or a raised exception into an appended error and `None`. -/
def _provide_download (requirement : DownloadRequirement) (ctx : DLContext) :
    Except PyError (DLContext × Option String) :=
  match ctx.status.analysis.existing_filename with
  | some filename =>
    Except.ok (ctx.append_log ("Previously downloaded file located at " ++ filename),
               some filename)
  | none =>
    match lookupAssoc ctx.environ "PROJECT_DIR" with
    | none => Except.error (PyError.keyError "PROJECT_DIR")
    | some project_dir =>
      let filename := os_path_join project_dir requirement.filename
      match ctx.download_result with
      | DownloadOutcome.response code =>
        if code = 200 then Except.ok (ctx, some filename)
        else
          Except.ok (ctx.append_error
            ("Error downloading " ++ requirement.url ++ ": response code " ++ toString code),
            none)
      | DownloadOutcome.raised msg =>
        Except.ok (ctx.append_error
          ("Error downloading " ++ requirement.url ++ ": " ++ msg), none)

/-- `DownloadProvider.provide` (download.py lines 108-125): run the
superclass provide, return immediately in check mode, and otherwise — when
the requirement's env var is not yet in the environment or the config source
is the download — run `_provide_download` and, on a resolved filename, store
it in `context.environ[requirement.env_var]`. -/
def DownloadProvider_provide (requirement : DownloadRequirement) (ctx0 : DLContext) :
    Except PyError DLContext :=
  let ctx := envVarSuperProvide requirement.env_var ctx0
  if ctx.mode = PROVIDE_MODE_CHECK then Except.ok ctx
  else if lookupAssoc ctx.environ requirement.env_var = none
      ∨ ctx.status.analysis.config_source = "download" then
    match _provide_download requirement ctx with
    | Except.error e => Except.error e
    | Except.ok (ctx', some filename) =>
      Except.ok { ctx' with environ := updateAssoc ctx'.environ requirement.env_var filename }
    | Except.ok (ctx', none) => Except.ok ctx'
  else Except.ok ctx

/-- The filename the provider resolves: the already-downloaded file found by
the analysis, else the destination joined under `PROJECT_DIR`. -/
def resolved_filename (requirement : DownloadRequirement) (ctx : DLContext) : Option String :=
  match ctx.status.analysis.existing_filename with
  | some f => some f
  | none =>
    match lookupAssoc ctx.environ "PROJECT_DIR" with
    | some project_dir => some (os_path_join project_dir requirement.filename)
    | none => none

/-- The input's error list extended by one message is never equal to it. -/
theorem append_one_error_ne {α : Type} (l : List α) (a : α) : l ++ [a] ≠ l := by
  intro h
  have h2 := congrArg List.length h
  simp at h2

/-- C9 counterexample: as stated, the claim is false — `provide` CAN let an
exception escape.  In a provide-mode context whose working environment lacks
`PROJECT_DIR` (and whose analysis found no already-downloaded file),
`_provide_download` evaluates `context.environ[PROJECT_DIR]` and the
`KeyError` propagates out of `provide` instead of being appended to
`context.errors`. -/
theorem download_provide_raises_counterexample :
    DownloadProvider_provide
        (DownloadRequirement.mk "DATA_FILE" "http://example.com/data.csv" "data.csv")
        (DLContext.mk [] "provide" (DownloadStatus.mk (DownloadAnalysis.mk "download" none))
          [] [] (DownloadOutcome.response 200))
      = Except.error (PyError.keyError "PROJECT_DIR") := rfl

/-- C9 amended: provided the analysis already located a downloaded file or
the working environment contains `PROJECT_DIR`, `DownloadProvider.provide`
never raises: it returns a context whose error list extends the input's;
whenever it appended an error it left the requirement's env var unchanged;
and in provide mode, when the download branch is taken and no error was
appended, it set the env var to the resolved filename. -/
theorem download_provide_no_raise (requirement : DownloadRequirement) (ctx : DLContext)
    (h : ctx.status.analysis.existing_filename ≠ none
      ∨ lookupAssoc ctx.environ "PROJECT_DIR" ≠ none) :
    ∃ ctx', DownloadProvider_provide requirement ctx = Except.ok ctx'
      ∧ (∃ newErrors, ctx'.errors = ctx.errors ++ newErrors)
      ∧ (ctx'.errors ≠ ctx.errors →
          lookupAssoc ctx'.environ requirement.env_var
            = lookupAssoc ctx.environ requirement.env_var)
      ∧ (ctx.mode ≠ PROVIDE_MODE_CHECK →
          (lookupAssoc ctx.environ requirement.env_var = none
            ∨ ctx.status.analysis.config_source = "download") →
          ctx'.errors = ctx.errors →
          lookupAssoc ctx'.environ requirement.env_var = resolved_filename requirement ctx) := by
  by_cases hmode : ctx.mode = PROVIDE_MODE_CHECK
  · refine ⟨ctx, ?_, ⟨[], by simp⟩, fun hc => absurd rfl hc, fun hm => absurd hmode hm⟩
    simp [DownloadProvider_provide, envVarSuperProvide, hmode]
  · by_cases hcond : lookupAssoc ctx.environ requirement.env_var = none
        ∨ ctx.status.analysis.config_source = "download"
    · cases hex : ctx.status.analysis.existing_filename with
      | some f =>
        refine ⟨{ ctx.append_log ("Previously downloaded file located at " ++ f) with environ := updateAssoc ctx.environ requirement.env_var f }, ?_, ⟨[], by simp [DLContext.append_log]⟩, fun hc => absurd rfl hc, fun _ _ _ => ?_⟩
        · simp [DownloadProvider_provide, envVarSuperProvide, hmode, hcond,
                _provide_download, hex, DLContext.append_log]
        · simp [DLContext.append_log, lookupAssoc_updateAssoc, resolved_filename, hex]
      | none =>
        have hpd : lookupAssoc ctx.environ "PROJECT_DIR" ≠ none := by
          rcases h with h₁ | h₂
          · exact absurd hex h₁
          · exact h₂
        cases hpdv : lookupAssoc ctx.environ "PROJECT_DIR" with
        | none => exact absurd hpdv hpd
        | some project_dir =>
          cases hdl : ctx.download_result with
          | response code =>
            by_cases hcode : code = 200
            · subst hcode
              refine ⟨{ ctx with environ := updateAssoc ctx.environ requirement.env_var (os_path_join project_dir requirement.filename) }, ?_, ⟨[], by simp⟩, fun hc => absurd rfl hc, fun _ _ _ => ?_⟩
              · simp [DownloadProvider_provide, envVarSuperProvide, hmode, hcond,
                      _provide_download, hex, hpdv, hdl]
              · simp [lookupAssoc_updateAssoc, resolved_filename, hex, hpdv]
            · refine ⟨ctx.append_error ("Error downloading " ++ requirement.url ++ ": response code " ++ toString code), ?_, ⟨["Error downloading " ++ requirement.url ++ ": response code " ++ toString code], rfl⟩, fun _ => rfl, fun _ _ heq => absurd heq (append_one_error_ne _ _)⟩
              simp [DownloadProvider_provide, envVarSuperProvide, hmode, hcond,
                    _provide_download, hex, hpdv, hdl, hcode]
          | raised msg =>
            refine ⟨ctx.append_error ("Error downloading " ++ requirement.url ++ ": " ++ msg), ?_, ⟨["Error downloading " ++ requirement.url ++ ": " ++ msg], rfl⟩, fun _ => rfl, fun _ _ heq => absurd heq (append_one_error_ne _ _)⟩
            simp [DownloadProvider_provide, envVarSuperProvide, hmode, hcond,
                  _provide_download, hex, hpdv, hdl]
    · refine ⟨ctx, ?_, ⟨[], by simp⟩, fun hc => absurd rfl hc, fun _ hc _ => absurd hc hcond⟩
      simp [DownloadProvider_provide, envVarSuperProvide, hmode, hcond]

def dlReq : DownloadRequirement :=
  DownloadRequirement.mk "DATA_FILE" "http://example.com/data.csv" "data.csv"

def dlCtx404 : DLContext :=
  DLContext.mk [("PROJECT_DIR", "/proj")] "provide"
    (DownloadStatus.mk (DownloadAnalysis.mk "download" none)) [] []
    (DownloadOutcome.response 404)

theorem download_provide_no_raise_witness :
    (dlCtx404.status.analysis.existing_filename ≠ none
      ∨ lookupAssoc dlCtx404.environ "PROJECT_DIR" ≠ none)
    ∧ ∃ ctx', DownloadProvider_provide dlReq dlCtx404 = Except.ok ctx'
      ∧ (∃ newErrors, ctx'.errors = dlCtx404.errors ++ newErrors)
      ∧ (ctx'.errors ≠ dlCtx404.errors →
          lookupAssoc ctx'.environ dlReq.env_var = lookupAssoc dlCtx404.environ dlReq.env_var)
      ∧ (dlCtx404.mode ≠ PROVIDE_MODE_CHECK →
          (lookupAssoc dlCtx404.environ dlReq.env_var = none
            ∨ dlCtx404.status.analysis.config_source = "download") →
          ctx'.errors = dlCtx404.errors →
          lookupAssoc ctx'.environ dlReq.env_var = resolved_filename dlReq dlCtx404) :=
  ⟨by decide, download_provide_no_raise dlReq dlCtx404 (by decide)⟩
